import Mathlib

/-!
# A shallow embedding of `simpletable.py` (class `SimpleTable`)

Items of the table are modelled by their stringification: the Python code
applies `str(...)` to every item before measuring or printing it, so a cell
item is represented here directly as the `String` that `str` would produce.

Machine integers do not occur; Python's `int` is modelled by `Int`
(`columnwidth` may be any integer, including a negative one).

Python string formatting `f"{s:>{cw}s}"` pads `s` on the left with spaces up
to width `cw` and never truncates; when `cw` is negative the format
specifier contains a sign, which Python rejects with a `ValueError`
("Sign not allowed in string format specifier").  Fallible rendering is
therefore modelled with `Except`.
-/

/-- The class attribute `hor_char = "-"`. -/
def hor_char : Char := '-'

/-- The class attribute `ver_char = "|"`. -/
def ver_char : String := "|"

/-- The instance state of a `SimpleTable` object.  The cached field
`auto_columnwidth` of the Python object is omitted: it is recomputed by
every reader (`__str__`, `_get_table_width`) and never observable.

`columns_are_tuples` records the runtime container type of the column
entries: `__init__` materializes every column as a `list`, a header-less
`transpose` replaces `columns` by `list(zip_longest(...))` whose entries
are all `tuple`s, and a `transpose` with a header stores
`list(column[1:])` entries, all `list`s again; no other operation touches
`columns`.  The container kinds are therefore always homogeneous across
the public API, so one flag captures the type state that decides whether
`column.insert(0, item)` is available. -/
structure SimpleTable where
  title : Option String
  header : Option (List String)
  columns : List (List String)
  columnwidth : Option Int
  columns_are_tuples : Bool
deriving Repr, DecidableEq

/-- `SimpleTable.__automatic_columnwidth`: the length of the longest
stringified item over the header (when present) and all columns. -/
def automatic_columnwidth (t : SimpleTable) : Nat :=
  let widest_header := match t.header with
    | none => 0
    | some hd => hd.foldl (fun w item => if item.length > w then item.length else w) 0
  t.columns.foldl
    (fun w column => column.foldl (fun w item => if item.length > w then item.length else w) w)
    widest_header

/-- The column width `cw` used by `__str__`: the explicit `columnwidth`
when set, otherwise the automatic one. -/
def resolved_columnwidth (t : SimpleTable) : Int :=
  match t.columnwidth with
  | some w => w
  | none => (automatic_columnwidth t : Int)

/-- `SimpleTable._get_table_width`. -/
def get_table_width (t : SimpleTable) : Int :=
  let table_width_title : Int := match t.title with
    | none => 0
    | some title => (title.length : Int) + 2
  let table_width_header : Int := match t.header with
    | none => 0
    | some hd => hd.foldl
        (fun acc item => match t.columnwidth with
          | none => acc + ((item.length : Int) + 1)
          | some w => acc + (w + 1)) 0
  let table_width_columns : Int :=
    if t.columns = [] then 0
    else match t.columnwidth with
      | none => ((automatic_columnwidth t : Int) + 1) * t.columns.length
      | some w => (w + 1) * t.columns.length
  let table_width :=
    if table_width_header > table_width_columns then table_width_header else table_width_columns
  if table_width_title > table_width then table_width_title else table_width

/-- The largest length of a member of `cols` (used by `zip_longest`). -/
def maxColLen (cols : List (List String)) : Nat :=
  cols.foldl (fun m c => max m c.length) 0

/-- `itertools.zip_longest(*cols, fillvalue="")`, with tuples modelled as
lists: row `i` takes item `i` of every column, `""` past a column's end. -/
def zipLongestFill (cols : List (List String)) : List (List String) :=
  (List.range (maxColLen cols)).map (fun i => cols.map (fun c => c.getD i ""))

/-- Python `f"{s:>{w}s}"` for a nonnegative width `w`: left-pad with
spaces to width `w`, no truncation. -/
def rjust_str (s : String) (w : Nat) : String :=
  String.mk (List.replicate (w - s.length) ' ') ++ s

/-- Python `f"{s:^{w}}"` for a nonnegative width `w`: centre, putting the
extra space (odd padding) on the right. -/
def center_str (s : String) (w : Nat) : String :=
  let pad := w - s.length
  String.mk (List.replicate (pad / 2) ' ') ++ s ++ String.mk (List.replicate (pad - pad / 2) ' ')

/-- `f"{s:>{cw}s}"` with an arbitrary integer width: a negative width puts
a sign in the format specifier, a `ValueError` in Python. -/
def format_rjust (s : String) (cw : Int) : Except String String :=
  if cw < 0 then Except.error "Sign not allowed in string format specifier"
  else Except.ok (rjust_str s cw.toNat)

/-- `f"{s:^{w}}"` with an arbitrary integer width. -/
def format_center (s : String) (w : Int) : Except String String :=
  if w < 0 then Except.error "Sign not allowed in string format specifier"
  else Except.ok (center_str s w.toNat)

/-- The cell loop of `__str__` with its string accumulator:
`for item in items: acc += f"{str(item):>{cw}s}{ver_char}"`; a formatting
error aborts the loop (the exception propagates). -/
def render_cells_go (cw : Int) (acc : String) : List String → Except String String
  | [] => Except.ok acc
  | item :: rest =>
    match format_rjust item cw with
    | Except.error e => Except.error e
    | Except.ok c => render_cells_go cw (acc ++ (c ++ ver_char)) rest

/-- The cell loop of `__str__`, started on an empty accumulator. -/
def render_cells (cw : Int) (items : List String) : Except String String :=
  render_cells_go cw "" items

/-- The row loop of `__str__` with its accumulator: every row is rendered
by the cell loop and terminated by a newline. -/
def render_rows_go (cw : Int) (acc : String) : List (List String) → Except String String
  | [] => Except.ok acc
  | row :: rest =>
    match render_cells cw row with
    | Except.error e => Except.error e
    | Except.ok r => render_rows_go cw (acc ++ (r ++ "\n")) rest

/-- The row loop of `__str__`, started on an empty accumulator. -/
def render_rows (cw : Int) (rows : List (List String)) : Except String String :=
  render_rows_go cw "" rows

/-- The title block of `__str__` (empty when there is no title). -/
def title_section (t : SimpleTable) (line_str : String) (tablewidth : Int) :
    Except String String :=
  match t.title with
  | none => Except.ok ""
  | some title =>
    (format_center title (tablewidth - 1)).map
      (fun c => line_str ++ "\n" ++ (c ++ (ver_char ++ "\n")))

/-- The header block of `__str__` (empty when there is no header). -/
def header_section (t : SimpleTable) (line_str : String) (cw : Int) :
    Except String String :=
  match t.header with
  | none => Except.ok ""
  | some hd =>
    (render_cells cw hd).map (fun h => line_str ++ "\n" ++ (h ++ "\n"))

/-- `SimpleTable.__str__`: title block, header block, horizontal rule, the
zipped data rows, and a final rule.  Errors (only possible from a negative
explicit `columnwidth`) propagate in evaluation order. -/
def simpletable_str (t : SimpleTable) : Except String String :=
  let cw := resolved_columnwidth t
  let tablewidth := get_table_width t
  let line_str := String.mk (List.replicate tablewidth.toNat hor_char)
  match title_section t line_str tablewidth with
  | Except.error e => Except.error e
  | Except.ok tp =>
    match header_section t line_str cw with
    | Except.error e => Except.error e
    | Except.ok hp =>
      match render_rows cw (zipLongestFill t.columns) with
      | Except.error e => Except.error e
      | Except.ok rp =>
        Except.ok (tp ++ (hp ++ (line_str ++ ("\n" ++ (rp ++ (line_str ++ "\n"))))))

/-- `SimpleTable.__len__`: length of the longest column, plus one when a
header is present. -/
def simpletable_len (t : SimpleTable) : Nat :=
  let max_len := t.columns.foldl (fun m column => if column.length > m then column.length else m) 0
  if t.header.isSome then max_len + 1 else max_len

/-- `SimpleTable.__eq__`, including the source's self-comparison of
`columnwidth` with itself. -/
def simpletable_eq (x y : SimpleTable) : Bool :=
  decide (x.columns = y.columns) && decide (x.header = y.header)
    && decide (x.title = y.title) && decide (x.columnwidth = x.columnwidth)

/-- The header loop of `transpose`:
`for index, item in enumerate(header)`, prepending `item` to column
`index` when `index < len(columns)` (note `columns` grows during the
loop) and appending `[item]` otherwise.  `i` is the running index. -/
def prepend_header_go (i : Nat) : List String → List (List String) → List (List String)
  | [], cols => cols
  | item :: rest, cols =>
    prepend_header_go (i + 1) rest
      (if i < cols.length then cols.set i (item :: cols.getD i []) else cols ++ [[item]])

/-- The header-harvest loop of `transpose`:
`for column in columns: header.append(column[0])`; `column[0]` raises
`IndexError` on an empty tuple. -/
def heads_of : List (List String) → Option (List String)
  | [] => some []
  | g :: gs =>
    match g with
    | [] => none
    | a :: _ => (heads_of gs).map (fun rest => a :: rest)

/-- `SimpleTable.transpose`.  With no header the zipped rows (tuples) are
stored directly as the new columns.  With a header, the very first loop
iteration already calls `self.columns[0].insert(0, item)` whenever the
header and the columns are both nonempty, so if the columns are currently
tuples (the state a header-less transpose leaves behind) this raises
`AttributeError` before anything else happens; otherwise the loop runs,
the enlarged columns are zipped, and the stored `list(column[1:])`
entries are lists again. -/
def transpose (t : SimpleTable) : Except String SimpleTable :=
  match t.header with
  | none => Except.ok { t with columns := zipLongestFill t.columns, columns_are_tuples := true }
  | some hd =>
    if t.columns_are_tuples ∧ hd ≠ [] ∧ t.columns ≠ [] then
      Except.error "AttributeError: 'tuple' object has no attribute 'insert'"
    else
      let cols2 := prepend_header_go 0 hd t.columns
      let z := zipLongestFill cols2
      match heads_of z with
      | none => Except.error "IndexError: tuple index out of range"
      | some new_header =>
        Except.ok { t with
          header := some new_header,
          columns := z.map (fun c => c.drop 1),
          columns_are_tuples := false }

/-! ## Keyword-argument parsing (`__parse_keyword_arguments`, `__init__`, `set`)

A Python value passed as a keyword argument, as far as the `isinstance`
checks of the source distinguish them.  A sequence's items are modelled
already stringified. -/

inductive PyVal where
  | vstr (s : String)
  | vint (n : Int)
  | vlist (items : List String)
deriving Repr, DecidableEq

def isinstance_str : PyVal → Bool
  | PyVal.vstr _ => true
  | _ => false

def isinstance_seq : PyVal → Bool
  | PyVal.vlist _ => true
  | _ => false

def isinstance_int : PyVal → Bool
  | PyVal.vint _ => true
  | _ => false

/-- The three option attributes of an instance, before type extraction:
Python assigns the raw keyword value to the attribute and only then
checks its type, so an attribute may hold an ill-typed value. -/
structure RawState where
  title : Option PyVal
  header : Option PyVal
  columnwidth : Option PyVal
deriving Repr, DecidableEq

/-- `SimpleTable.__parse_keyword_arguments`: iterate the keyword
arguments in order; for each recognized name, assign the value to the
attribute first and then type-check it, raising (the returned message)
on the first failure; unrecognized names are silently ignored.  The
returned state is the instance state when the call returns or raises. -/
def parse_keyword_arguments : List (String × PyVal) → RawState → RawState × Option String
  | [], st => (st, none)
  | (arg_name, v) :: rest, st =>
    if arg_name = "title" then
      let st := { st with title := some v }
      if isinstance_str v then parse_keyword_arguments rest st
      else (st, some "title must be of type string")
    else if arg_name = "header" then
      let st := { st with header := some v }
      if isinstance_seq v then parse_keyword_arguments rest st
      else (st, some "header must be of type tuple, list or set")
    else if arg_name = "columnwidth" then
      let st := { st with columnwidth := some v }
      if isinstance_int v then parse_keyword_arguments rest st
      else (st, some "columnwidth must be of type int")
    else parse_keyword_arguments rest st

/-- The keyword stage of `SimpleTable.__init__`: all option attributes
start as `None`, then the keyword arguments are parsed.  Rendering is a
separate, later operation; it cannot run before this returns. -/
def simpletable_init_kwargs (kwargs : List (String × PyVal)) : RawState × Option String :=
  parse_keyword_arguments kwargs { title := none, header := none, columnwidth := none }

/-- `SimpleTable.set`: re-runs keyword parsing on an existing instance. -/
def set_kwargs (st : RawState) (kwargs : List (String × PyVal)) : RawState × Option String :=
  parse_keyword_arguments kwargs st

/-- Extraction of a typed `SimpleTable` from a raw state whose parsing
succeeded (every present attribute has the checked type). -/
def mk_table (columns : List (List String)) (st : RawState) : Option SimpleTable :=
  match st.title, st.header, st.columnwidth with
  | some (PyVal.vstr s), some (PyVal.vlist hd), some (PyVal.vint w) =>
    some { title := some s, header := some hd, columns := columns, columnwidth := some w, columns_are_tuples := false }
  | some (PyVal.vstr s), some (PyVal.vlist hd), none =>
    some { title := some s, header := some hd, columns := columns, columnwidth := none, columns_are_tuples := false }
  | some (PyVal.vstr s), none, some (PyVal.vint w) =>
    some { title := some s, header := none, columns := columns, columnwidth := some w, columns_are_tuples := false }
  | some (PyVal.vstr s), none, none =>
    some { title := some s, header := none, columns := columns, columnwidth := none, columns_are_tuples := false }
  | none, some (PyVal.vlist hd), some (PyVal.vint w) =>
    some { title := none, header := some hd, columns := columns, columnwidth := some w, columns_are_tuples := false }
  | none, some (PyVal.vlist hd), none =>
    some { title := none, header := some hd, columns := columns, columnwidth := none, columns_are_tuples := false }
  | none, none, some (PyVal.vint w) =>
    some { title := none, header := none, columns := columns, columnwidth := some w, columns_are_tuples := false }
  | none, none, none =>
    some { title := none, header := none, columns := columns, columnwidth := none, columns_are_tuples := false }
  | _, _, _ => none

/-! ## General helper lemmas -/

/-- Reading every position of a list back with `getD` reproduces the list. -/
theorem getD_range_length {α : Type} (l : List α) (d : α) :
    (List.range l.length).map (fun i => l.getD i d) = l := by
  induction l with
  | nil => rfl
  | cons a tl ih =>
    rw [List.length_cons, List.range_succ_eq_map, List.map_cons, List.map_map,
      List.getD_cons_zero]
    refine congrArg (a :: ·) ?_
    have hfun : ((fun i => (a :: tl).getD i d) ∘ Nat.succ) = fun i => tl.getD i d := by
      funext i
      simp [List.getD_cons_succ]
    rw [hfun, ih]

theorem foldl_if_max (l : List Nat) : ∀ a : Nat,
    l.foldl (fun m x => if x > m then x else m) a = max a (l.foldr max 0) := by
  induction l with
  | nil => intro a; simp
  | cons x xs ih =>
    intro a
    simp only [List.foldl_cons, List.foldr_cons, ih]
    have hax : (if x > a then x else a) = max a x := by
      rcases le_or_lt x a with h | h
      · rw [if_neg (not_lt.mpr h), Nat.max_eq_left h]
      · rw [if_pos h, Nat.max_eq_right (le_of_lt h)]
    rw [hax, Nat.max_assoc]

theorem foldl_add_map {α : Type} (f : α → Int) (l : List α) : ∀ a : Int,
    l.foldl (fun acc x => acc + f x) a = a + (l.map f).sum := by
  induction l with
  | nil => intro a; simp
  | cons x xs ih => intro a; simp [ih, add_assoc]

theorem ite_gt_max (a b : Int) : (if a > b then a else b) = max b a := by
  rcases le_or_lt a b with h | h
  · rw [if_neg (not_lt.mpr h), max_eq_left h]
  · rw [if_pos h, max_eq_right (le_of_lt h)]

/-! ## C6: the length query -/

/-- The length of the longest column, `0` when there are no columns. -/
def longest_column_length (t : SimpleTable) : Nat :=
  (t.columns.map List.length).foldr max 0

/-- C6: `len(table)` is the length of the longest column (`0` when there
are no columns), plus one exactly when a header is present. -/
theorem len_longest_column (t : SimpleTable) :
    simpletable_len t = longest_column_length t + (if t.header.isSome then 1 else 0) := by
  unfold simpletable_len longest_column_length
  have hfold : t.columns.foldl (fun m column => if column.length > m then column.length else m) 0
      = (t.columns.map List.length).foldr max 0 := by
    rw [← List.foldl_map List.length (fun m x => if x > m then x else m), foldl_if_max]
    exact Nat.max_eq_right (Nat.zero_le _)
  cases t.header <;> simp [hfold]

/-! ## C7: equality ignores the column width -/

/-- C7: the equality operator decides exactly equality of columns, header
and title; the `columnwidth` conjunct of the source compares the field
with itself and never distinguishes anything. -/
theorem eq_ignores_columnwidth (x y : SimpleTable) :
    simpletable_eq x y = true ↔ (x.columns = y.columns ∧ x.header = y.header ∧ x.title = y.title) := by
  simp [simpletable_eq, and_assoc]

/-- Witness: two tables that differ only in `columnwidth` compare equal. -/
theorem eq_ignores_columnwidth_witness :
    simpletable_eq { title := none, header := none, columns := [["a"]], columnwidth := some 3, columns_are_tuples := false }
      { title := none, header := none, columns := [["a"]], columnwidth := some 7, columns_are_tuples := false } = true :=
  (eq_ignores_columnwidth _ _).mpr ⟨rfl, rfl, rfl⟩

/-! ## C8: a non-integer `columnwidth` is rejected at construction -/

theorem parse_fails_of_bad_columnwidth :
    ∀ (kwargs : List (String × PyVal)) (st : RawState) (v : PyVal),
      ("columnwidth", v) ∈ kwargs → isinstance_int v = false →
      ((parse_keyword_arguments kwargs st).2).isSome := by
  intro kwargs
  induction kwargs with
  | nil => intro st v hmem _; simp at hmem
  | cons p rest ih =>
    intro st v hmem hbad
    obtain ⟨arg_name, w⟩ := p
    rcases List.mem_cons.mp hmem with heq | hmem2
    · injection heq with hn hv
      subst hn; subst hv
      simp [parse_keyword_arguments, hbad]
    · simp only [parse_keyword_arguments]
      split
      · split
        · exact ih _ v hmem2 hbad
        · simp
      · split
        · split
          · exact ih _ v hmem2 hbad
          · simp
        · split
          · split
            · exact ih _ v hmem2 hbad
            · simp
          · exact ih _ v hmem2 hbad

/-- C8: constructing with a `columnwidth` keyword whose value is not an
integer raises a `TypeError` during `__init__` (hence before any
rendering can happen). -/
theorem init_rejects_noninteger_columnwidth (kwargs : List (String × PyVal)) (v : PyVal)
    (hmem : ("columnwidth", v) ∈ kwargs) (hbad : isinstance_int v = false) :
    ((simpletable_init_kwargs kwargs).2).isSome :=
  parse_fails_of_bad_columnwidth kwargs _ v hmem hbad

/-- Witness: `columnwidth="wide"` is rejected, with the `TypeError`
message of the source. -/
theorem init_rejects_noninteger_columnwidth_witness :
    (("columnwidth", PyVal.vstr "wide") ∈ [("columnwidth", PyVal.vstr "wide")])
    ∧ isinstance_int (PyVal.vstr "wide") = false
    ∧ ((simpletable_init_kwargs [("columnwidth", PyVal.vstr "wide")]).2).isSome
    ∧ (simpletable_init_kwargs [("columnwidth", PyVal.vstr "wide")]).2
        = some "columnwidth must be of type int" :=
  ⟨List.mem_singleton.mpr rfl, rfl,
    init_rejects_noninteger_columnwidth _ _ (List.mem_singleton.mpr rfl) rfl, rfl⟩

/-! ## C10: `set` mutates before it type-checks -/

/-- C10: `set` assigns each recognized option to the attribute before
checking its type: after `set(columnwidth=w, title=v)` with a non-string
`v`, the call raises, yet `columnwidth` (processed earlier in the same
call) is applied and `title` already holds the invalid value. -/
theorem set_assigns_before_check (st : RawState) (v : PyVal) (w : Int)
    (rest : List (String × PyVal)) (hv : isinstance_str v = false) :
    set_kwargs st (("columnwidth", PyVal.vint w) :: ("title", v) :: rest)
      = ({ st with columnwidth := some (PyVal.vint w), title := some v },
         some "title must be of type string") := by
  unfold set_kwargs
  simp [parse_keyword_arguments, isinstance_int, hv]

/-- Witness: on a fresh instance, `set(columnwidth=5, title=3)` raises
but leaves `columnwidth = 5` and `title = 3` behind. -/
theorem set_assigns_before_check_witness :
    set_kwargs { title := none, header := none, columnwidth := none }
      [("columnwidth", PyVal.vint 5), ("title", PyVal.vint 3)]
      = ({ title := some (PyVal.vint 3), header := none, columnwidth := some (PyVal.vint 5) },
         some "title must be of type string") :=
  set_assigns_before_check _ (PyVal.vint 3) 5 [] rfl

/-! ## C2: the fully concrete rendering example -/

/-- C2 counterexample: for columns `[["a","bb"],["ccc"]]` the rendered
cells have width `3` plus one border character, so the data rows are
`"  a|ccc|\n bb|   |\n"` — not the five-character cells
`"  a  |ccc|\n bb  |   |\n"` asserted by the claim. -/
theorem render_example_counterexample :
    simpletable_str ⟨none, none, [["a", "bb"], ["ccc"]], none, false⟩
      = Except.ok "--------\n  a|ccc|\n bb|   |\n--------\n"
    ∧ ("--------\n  a|ccc|\n bb|   |\n--------\n" : String)
      ≠ "--------\n  a  |ccc|\n bb  |   |\n--------\n" := by
  exact ⟨rfl, by decide⟩

/-- C2 amended: automatic width `3`, rule lines of width `(3+1)*2 = 8`,
and data rows exactly `"  a|ccc|\n bb|   |\n"`. -/
theorem render_example_amended :
    automatic_columnwidth ⟨none, none, [["a", "bb"], ["ccc"]], none, false⟩ = 3
    ∧ get_table_width ⟨none, none, [["a", "bb"], ["ccc"]], none, false⟩ = 8
    ∧ simpletable_str ⟨none, none, [["a", "bb"], ["ccc"]], none, false⟩
      = Except.ok ("--------\n" ++ ("  a|ccc|\n bb|   |\n" ++ "--------\n")) := by
  exact ⟨rfl, rfl, rfl⟩

/-! ## C3: the overall table width -/

/-- Title contribution to the table width: title length plus `2`. -/
def title_width_spec (t : SimpleTable) : Int :=
  match t.title with
  | none => 0
  | some title => (title.length : Int) + 2

/-- Header contribution: per-item stringified length plus one when
`columnwidth` is unset, the fixed width plus one per item when set. -/
def header_width_spec (t : SimpleTable) : Int :=
  match t.header with
  | none => 0
  | some hd =>
    match t.columnwidth with
    | none => (hd.map (fun item => (item.length : Int) + 1)).sum
    | some w => (hd.map (fun _ => w + 1)).sum

/-- Column contribution: `(resolved width + 1) * number of columns` when
there is at least one column. -/
def columns_width_spec (t : SimpleTable) : Int :=
  if t.columns = [] then 0
  else (resolved_columnwidth t + 1) * t.columns.length

/-- C3: the width used for horizontal rules is the maximum of the three
contributions. -/
theorem table_width_formula (t : SimpleTable) :
    get_table_width t
      = max (title_width_spec t) (max (header_width_spec t) (columns_width_spec t)) := by
  obtain ⟨title, header, columns, cw⟩ := t
  cases header with
  | none =>
    cases cw <;>
      simp only [get_table_width, title_width_spec, header_width_spec, columns_width_spec,
        resolved_columnwidth, ite_gt_max] <;>
      simp [max_comm, max_left_comm, max_assoc]
  | some hd =>
    cases cw with
    | none =>
      simp only [get_table_width, title_width_spec, header_width_spec, columns_width_spec,
        resolved_columnwidth]
      rw [foldl_add_map (fun item => ((item.length : Int) + 1)) hd 0, zero_add,
        ite_gt_max, ite_gt_max]
      simp [max_comm, max_left_comm, max_assoc]
    | some w =>
      simp only [get_table_width, title_width_spec, header_width_spec, columns_width_spec,
        resolved_columnwidth]
      rw [foldl_add_map (fun _ => w + 1) hd 0, zero_add, ite_gt_max, ite_gt_max]
      simp [max_comm, max_left_comm, max_assoc]

/-! ## C1: explicit column width controls every cell -/

/-- Concatenation of a list of strings, in order. -/
def concat_strings : List String → String
  | [] => ""
  | s :: rest => s ++ concat_strings rest

/-- Modelled from the spec: one rendered cell under an explicit width `W`
is the item right-justified to `W` characters (left space padding, never
truncated) followed by one vertical border character. -/
def cell_spec (W : Nat) (item : String) : String :=
  String.mk (List.replicate (W - item.length) ' ') ++ (item ++ ver_char)

/-- Modelled from the spec: the whole rendered string, with every header
and data cell given by `cell_spec`. -/
def spec_render (t : SimpleTable) (W : Nat) : String :=
  let line_str := String.mk (List.replicate (get_table_width t).toNat hor_char)
  (match t.title with
   | none => ""
   | some title =>
     line_str ++ "\n" ++ (center_str title (get_table_width t - 1).toNat ++ (ver_char ++ "\n")))
  ++ ((match t.header with
   | none => ""
   | some hd => line_str ++ "\n" ++ (concat_strings (hd.map (cell_spec W)) ++ "\n"))
  ++ (line_str
  ++ ("\n"
  ++ (concat_strings
        ((zipLongestFill t.columns).map (fun row => concat_strings (row.map (cell_spec W)) ++ "\n"))
  ++ (line_str ++ "\n")))))

theorem cell_spec_eq (W : Nat) (item : String) :
    cell_spec W item = rjust_str item W ++ ver_char := by
  rw [cell_spec, rjust_str, String.append_assoc]

theorem render_cells_go_pos (cw : Int) (hcw : ¬ cw < 0) :
    ∀ (items : List String) (acc : String),
      render_cells_go cw acc items
        = Except.ok (acc ++ concat_strings (items.map (cell_spec cw.toNat))) := by
  intro items
  induction items with
  | nil =>
    intro acc
    simp [render_cells_go, concat_strings]
  | cons item rest ih =>
    intro acc
    have hfmt : format_rjust item cw = Except.ok (rjust_str item cw.toNat) := by
      simp [format_rjust, hcw]
    simp only [render_cells_go, hfmt]
    rw [ih]
    simp [concat_strings, cell_spec_eq, String.append_assoc]

theorem render_cells_go_neg (cw : Int) (hcw : cw < 0) (item : String) (rest : List String)
    (acc : String) :
    render_cells_go cw acc (item :: rest)
      = Except.error "Sign not allowed in string format specifier" := by
  simp [render_cells_go, format_rjust, hcw]

theorem render_cells_ok_eq (cw : Int) (items : List String) (r : String)
    (h : render_cells cw items = Except.ok r) :
    r = concat_strings (items.map (cell_spec cw.toNat)) := by
  rcases lt_or_ge cw 0 with hneg | hpos
  · cases items with
    | nil =>
      simp [render_cells, render_cells_go] at h
      simp [concat_strings, ← h]
    | cons item rest =>
      rw [render_cells, render_cells_go_neg cw hneg] at h
      exact absurd h (by simp)
  · rw [render_cells, render_cells_go_pos cw (not_lt.mpr hpos)] at h
    have := Except.ok.inj h
    rw [← this, String.empty_append]

theorem render_rows_go_ok (cw : Int) :
    ∀ (rows : List (List String)) (acc r : String),
      render_rows_go cw acc rows = Except.ok r →
      r = acc
          ++ concat_strings
              (rows.map (fun row => concat_strings (row.map (cell_spec cw.toNat)) ++ "\n")) := by
  intro rows
  induction rows with
  | nil =>
    intro acc r h
    simp [render_rows_go] at h
    simp [concat_strings, ← h]
  | cons row rest ih =>
    intro acc r h
    rcases hcell : render_cells cw row with e | rr
    · rw [render_rows_go, hcell] at h
      exact absurd h (by simp)
    · rw [render_rows_go, hcell] at h
      have hr := ih _ _ h
      rw [hr, render_cells_ok_eq cw row rr hcell]
      simp [concat_strings, String.append_assoc]

theorem render_rows_go_pos (cw : Int) (hcw : ¬ cw < 0) :
    ∀ (rows : List (List String)) (acc : String),
      render_rows_go cw acc rows
        = Except.ok (acc
            ++ concat_strings
                (rows.map (fun row => concat_strings (row.map (cell_spec cw.toNat)) ++ "\n"))) := by
  intro rows
  induction rows with
  | nil =>
    intro acc
    simp [render_rows_go, concat_strings]
  | cons row rest ih =>
    intro acc
    simp only [render_rows_go, render_cells, render_cells_go_pos cw hcw, String.empty_append, ih]
    simp [concat_strings, String.append_assoc]

theorem title_section_ok_eq (t : SimpleTable) (line_str : String) (tablewidth : Int)
    (tp : String) (h : title_section t line_str tablewidth = Except.ok tp) :
    tp = match t.title with
      | none => ""
      | some title =>
        line_str ++ "\n" ++ (center_str title (tablewidth - 1).toNat ++ (ver_char ++ "\n")) := by
  cases ht : t.title with
  | none =>
    simp only [title_section, ht] at h
    simp only [ht]
    exact (Except.ok.inj h).symm
  | some title =>
    simp only [title_section, ht, format_center] at h
    by_cases hlt : tablewidth - 1 < 0
    · rw [if_pos hlt] at h
      simp [Except.map] at h
    · rw [if_neg hlt] at h
      simp only [Except.map] at h
      simp only [ht]
      exact (Except.ok.inj h).symm

theorem header_section_ok_eq (t : SimpleTable) (line_str : String) (cw : Int)
    (hp : String) (h : header_section t line_str cw = Except.ok hp) :
    hp = match t.header with
      | none => ""
      | some hd => line_str ++ "\n" ++ (concat_strings (hd.map (cell_spec cw.toNat)) ++ "\n") := by
  cases ht : t.header with
  | none =>
    simp only [header_section, ht] at h
    simp only [ht]
    exact (Except.ok.inj h).symm
  | some hd =>
    simp only [header_section, ht] at h
    rcases hc : render_cells cw hd with e | hr <;> rw [hc] at h
    · simp [Except.map] at h
    · simp only [Except.map] at h
      simp only [ht]
      rw [← Except.ok.inj h, render_cells_ok_eq cw hd hr hc]

/-- Any string produced by `__str__` has the `spec_render` shape (every
cell is `cell_spec` at the resolved width). -/
theorem simpletable_str_ok_eq (t : SimpleTable) (s : String)
    (hs : simpletable_str t = Except.ok s) :
    s = spec_render t (resolved_columnwidth t).toNat := by
  simp only [simpletable_str] at hs
  simp only [spec_render]
  generalize hline : String.mk (List.replicate (get_table_width t).toNat hor_char) = L at hs ⊢
  rcases h1 : title_section t L (get_table_width t) with e | tp <;> rw [h1] at hs
  · simp at hs
  rcases h2 : header_section t L (resolved_columnwidth t) with e | hp <;> rw [h2] at hs
  · simp at hs
  rcases h3 : render_rows (resolved_columnwidth t) (zipLongestFill t.columns) with e | rp
    <;> rw [h3] at hs
  · simp at hs
  simp only [Except.ok.injEq] at hs
  rw [← hs]
  rw [title_section_ok_eq t L (get_table_width t) tp h1,
    header_section_ok_eq t L (resolved_columnwidth t) hp h2]
  have hrp := render_rows_go_ok (resolved_columnwidth t) (zipLongestFill t.columns) "" rp
    (by simpa [render_rows] using h3)
  rw [hrp, String.empty_append]

/-- C1: when `columnwidth = W` is explicit, any produced rendering is the
`spec_render` assembly, whose every header and data cell is the item
right-justified to `W` characters plus one border character; a cell of an
item that fits is exactly `W + 1` characters, and a longer item appears
in full, untruncated. -/
theorem explicit_width_cell_format (t : SimpleTable) (W : Int) (s : String)
    (hcw : t.columnwidth = some W) (hs : simpletable_str t = Except.ok s) :
    s = spec_render t W.toNat
    ∧ (∀ item : String, item.length ≤ W.toNat → (cell_spec W.toNat item).length = W.toNat + 1)
    ∧ (∀ item : String, W.toNat ≤ item.length → cell_spec W.toNat item = item ++ ver_char) := by
  have hres : resolved_columnwidth t = W := by simp [resolved_columnwidth, hcw]
  refine ⟨?_, ?_, ?_⟩
  · have hmain := simpletable_str_ok_eq t s hs
    rwa [hres] at hmain
  · intro item hle
    have hv : ver_char.length = 1 := rfl
    rw [cell_spec]
    simp [String.length_append, hv]
    omega
  · intro item hge
    rw [cell_spec, Nat.sub_eq_zero_of_le hge]
    simp [String.empty_append]

/-- Witness for C1 at `columnwidth = 2`, header `["ab"]`, one column
`["xyz"]` whose item is wider than the column. -/
theorem explicit_width_cell_format_witness :
    simpletable_str ⟨none, some ["ab"], [["xyz"]], some 2, false⟩
      = Except.ok "---\nab|\n---\nxyz|\n---\n"
    ∧ ("---\nab|\n---\nxyz|\n---\n" : String)
      = spec_render ⟨none, some ["ab"], [["xyz"]], some 2, false⟩ 2
    ∧ cell_spec 2 "xyz" = "xyz" ++ ver_char := by
  refine ⟨rfl, ?_, ?_⟩
  · exact (explicit_width_cell_format ⟨none, some ["ab"], [["xyz"]], some 2, false⟩ 2 _ rfl rfl).1
  · exact (explicit_width_cell_format ⟨none, some ["ab"], [["xyz"]], some 2, false⟩ 2 _ rfl rfl).2.2
      "xyz" (by decide)

/-! ## C9: safety of rendering and transposing a valid instance -/

theorem le_ite_gt (a b : Int) : a ≤ if a > b then a else b := by
  split <;> omega

/-- The table width is at least `len(title) + 2` when a title is present,
so the title centring width `tablewidth - 1` is never negative. -/
theorem width_ge_title (t : SimpleTable) (title : String) (h : t.title = some title) :
    (title.length : Int) + 2 ≤ get_table_width t := by
  simp only [get_table_width, h]
  exact le_ite_gt _ _

theorem render_ok (t : SimpleTable) (h : ¬ resolved_columnwidth t < 0) :
    ∃ s, simpletable_str t = Except.ok s := by
  simp only [simpletable_str]
  have htp : ∃ tp, title_section t
      (String.mk (List.replicate (get_table_width t).toNat hor_char)) (get_table_width t)
      = Except.ok tp := by
    cases ht : t.title with
    | none => exact ⟨"", by simp [title_section, ht]⟩
    | some title =>
      have hw := width_ge_title t title ht
      refine ⟨String.mk (List.replicate (get_table_width t).toNat hor_char) ++ "\n"
          ++ (center_str title (get_table_width t - 1).toNat ++ (ver_char ++ "\n")), ?_⟩
      simp only [title_section, ht, format_center]
      rw [if_neg (by omega : ¬ get_table_width t - 1 < 0)]
      simp [Except.map]
  obtain ⟨tp, htp⟩ := htp
  have hhp : ∃ hp, header_section t
      (String.mk (List.replicate (get_table_width t).toNat hor_char)) (resolved_columnwidth t)
      = Except.ok hp := by
    cases ht : t.header with
    | none => exact ⟨"", by simp [header_section, ht]⟩
    | some hd =>
      refine ⟨String.mk (List.replicate (get_table_width t).toNat hor_char) ++ "\n"
          ++ (("" ++ concat_strings (hd.map (cell_spec (resolved_columnwidth t).toNat))) ++ "\n"),
        ?_⟩
      simp only [header_section, ht, render_cells, render_cells_go_pos _ h, Except.map]
  obtain ⟨hp, hhp⟩ := hhp
  have hrp : render_rows (resolved_columnwidth t) (zipLongestFill t.columns)
      = Except.ok ("" ++ concat_strings ((zipLongestFill t.columns).map
          (fun row => concat_strings (row.map (cell_spec (resolved_columnwidth t).toNat)) ++ "\n"))) := by
    rw [render_rows, render_rows_go_pos _ h]
  refine ⟨tp ++ (hp ++ (String.mk (List.replicate (get_table_width t).toNat hor_char)
      ++ ("\n" ++ (("" ++ concat_strings ((zipLongestFill t.columns).map
            (fun row => concat_strings (row.map (cell_spec (resolved_columnwidth t).toNat)) ++ "\n")))
      ++ (String.mk (List.replicate (get_table_width t).toNat hor_char) ++ "\n"))))), ?_⟩
  rw [htp, hhp, hrp]

theorem zip_mem_length (cols : List (List String)) (g : List String)
    (hg : g ∈ zipLongestFill cols) : g.length = cols.length := by
  simp only [zipLongestFill, List.mem_map] at hg
  obtain ⟨i, _, rfl⟩ := hg
  simp

theorem zip_mem_ne_nil (cols : List (List String)) (g : List String)
    (hg : g ∈ zipLongestFill cols) : g ≠ [] := by
  intro hnil
  have hlen := zip_mem_length cols g hg
  rw [hnil] at hlen
  have hcols : cols = [] := List.length_eq_zero.mp hlen.symm
  rw [hcols] at hg
  simp [zipLongestFill, maxColLen] at hg

theorem heads_of_some (z : List (List String)) (h : ∀ g ∈ z, g ≠ []) :
    heads_of z = some (z.map (fun g => g.headD "")) := by
  induction z with
  | nil => rfl
  | cons g gs ih =>
    cases hg : g with
    | nil => exact absurd hg (h g (List.mem_cons_self g gs))
    | cons a as =>
      subst hg
      have hrest : ∀ g2 ∈ gs, g2 ≠ [] := fun g2 hg2 => h g2 (List.mem_cons_of_mem _ hg2)
      simp [heads_of, ih hrest]

/-- `transpose` never raises while the columns are plain lists (the
state construction produces): the guard of the `AttributeError` path is
off and the harvested first elements always exist. -/
theorem transpose_ok_of_lists (t : SimpleTable) (hcols : t.columns_are_tuples = false) :
    ∃ t2, transpose t = Except.ok t2 := by
  cases ht : t.header with
  | none =>
    exact ⟨{ t with columns := zipLongestFill t.columns, columns_are_tuples := true },
      by simp only [transpose, ht]⟩
  | some hd =>
    refine ⟨{ t with
        header := some ((zipLongestFill (prepend_header_go 0 hd t.columns)).map
          (fun g => g.headD "")),
        columns := (zipLongestFill (prepend_header_go 0 hd t.columns)).map
          (fun c => c.drop 1),
        columns_are_tuples := false }, ?_⟩
    simp only [transpose, ht]
    rw [if_neg (by simp [hcols])]
    rw [heads_of_some _ (fun g hg => zip_mem_ne_nil _ g hg)]

/-- C9 (amended): rendering never raises provided the column width is
unset or nonnegative, and transpose never raises provided the column
containers are plain lists, as construction leaves them; ragged columns
are always tolerated through empty-string padding. -/
theorem render_transpose_safe (t : SimpleTable)
    (h : t.columnwidth = none ∨ ∃ W, t.columnwidth = some W ∧ 0 ≤ W)
    (hcols : t.columns_are_tuples = false) :
    (∃ s, simpletable_str t = Except.ok s) ∧ ∃ t2, transpose t = Except.ok t2 := by
  have hcw : ¬ resolved_columnwidth t < 0 := by
    rcases h with h | ⟨W, hW, hpos⟩
    · have hr : resolved_columnwidth t = (automatic_columnwidth t : Int) := by
        simp [resolved_columnwidth, h]
      rw [hr]
      exact not_lt.mpr (Int.natCast_nonneg _)
    · have hr : resolved_columnwidth t = W := by simp [resolved_columnwidth, hW]
      rw [hr]
      exact not_lt.mpr hpos
  exact ⟨render_ok t hcw, transpose_ok_of_lists t hcols⟩

/-- Witness for C9 on a ragged, header-less table with automatic width. -/
theorem render_transpose_safe_witness :
    (∃ s, simpletable_str ⟨none, none, [["a"], ["b", "c"]], none, false⟩ = Except.ok s)
    ∧ ∃ t2, transpose ⟨none, none, [["a"], ["b", "c"]], none, false⟩ = Except.ok t2 :=
  render_transpose_safe _ (Or.inl rfl) rfl

/-- C9 counterexample, two error paths of already-valid instances.
First: `columnwidth = -1` passes the `isinstance(int)` validation of
construction, yet rendering the resulting instance raises a
`ValueError`.  Second: transposing a header-less table leaves the
columns as tuples; `set(header=["H1","H2"])` then succeeds (the header
is a list), and the next transpose raises `AttributeError` at
`self.columns[0].insert(0, "H1")`. -/
theorem render_transpose_raise_counterexample :
    simpletable_init_kwargs [("columnwidth", PyVal.vint (-1))]
      = ({ title := none, header := none, columnwidth := some (PyVal.vint (-1)) }, none)
    ∧ mk_table [["a"]] { title := none, header := none, columnwidth := some (PyVal.vint (-1)) }
      = some ⟨none, none, [["a"]], some (-1), false⟩
    ∧ simpletable_str ⟨none, none, [["a"]], some (-1), false⟩
      = Except.error "Sign not allowed in string format specifier"
    ∧ transpose ⟨none, none, [["a", "b"]], none, false⟩
      = Except.ok ⟨none, none, [["a"], ["b"]], none, true⟩
    ∧ (set_kwargs { title := none, header := none, columnwidth := none }
        [("header", PyVal.vlist ["H1", "H2"])]).2 = none
    ∧ transpose ⟨none, some ["H1", "H2"], [["a"], ["b"]], none, true⟩
      = Except.error "AttributeError: 'tuple' object has no attribute 'insert'" :=
  ⟨rfl, rfl, rfl, rfl, rfl, rfl⟩

/-! ## C4: double transpose of a rectangular header-less table -/

theorem foldl_max_const (n : Nat) : ∀ (cols : List (List String)) (a : Nat),
    (∀ c ∈ cols, c.length = n) → cols ≠ [] →
    cols.foldl (fun m c => max m c.length) a = max a n := by
  intro cols
  induction cols with
  | nil => intro a _ hne; exact absurd rfl hne
  | cons c cs ih =>
    intro a hall hne
    rw [List.foldl_cons]
    rcases eq_or_ne cs [] with hcs | hcs
    · subst hcs
      rw [List.foldl_nil, hall c (List.mem_cons_self c [])]
    · rw [ih (max a c.length) (fun x hx => hall x (List.mem_cons_of_mem _ hx)) hcs,
        hall c (List.mem_cons_self c cs), Nat.max_assoc, Nat.max_self]

theorem maxColLen_const (cols : List (List String)) (n : Nat)
    (hall : ∀ c ∈ cols, c.length = n) (hne : cols ≠ []) : maxColLen cols = n := by
  rw [maxColLen, foldl_max_const n cols 0 hall hne, Nat.zero_max]

theorem getD_map_lt {α β : Type} (f : α → β) (l : List α) (j : Nat) (hj : j < l.length)
    (d : β) (d2 : α) : (l.map f).getD j d = f (l.getD j d2) := by
  rw [List.getD_eq_getElem?_getD, List.getElem?_map, List.getD_eq_getElem?_getD,
    List.getElem?_eq_getElem hj]
  simp

/-- Transposing twice restores rectangular columns of positive length. -/
theorem zip_zip_id (cols : List (List String)) (n : Nat)
    (hall : ∀ c ∈ cols, c.length = n) (hn : 0 < n) :
    zipLongestFill (zipLongestFill cols) = cols := by
  rcases eq_or_ne cols [] with hnil | hne
  · subst hnil; rfl
  have hm : maxColLen cols = n := maxColLen_const cols n hall hne
  have hz : zipLongestFill cols = (List.range n).map (fun i => cols.map (fun c => c.getD i "")) := by
    rw [zipLongestFill, hm]
  have hzne : zipLongestFill cols ≠ [] := by
    rw [hz]
    intro hcon
    have hr : List.range n = [] := List.map_eq_nil_iff.mp hcon
    rw [List.range_eq_nil] at hr
    omega
  have hmz : maxColLen (zipLongestFill cols) = cols.length :=
    maxColLen_const _ _ (fun g hg => zip_mem_length cols g hg) hzne
  conv_lhs => rw [zipLongestFill, hmz]
  conv_rhs => rw [← getD_range_length cols []]
  refine List.map_congr_left ?_
  intro j hj
  have hjm : j < cols.length := List.mem_range.mp hj
  rw [hz, List.map_map]
  have hcj : cols.getD j [] ∈ cols := by
    have hget : cols.getD j [] = cols[j] := by
      rw [List.getD_eq_getElem?_getD, List.getElem?_eq_getElem hjm]
      rfl
    rw [hget]
    exact List.getElem_mem hjm
  have hcjlen : (cols.getD j []).length = n := hall _ hcj
  have hfun : ((fun g => g.getD j "") ∘ fun i => cols.map (fun c => c.getD i ""))
      = fun i => (cols.getD j []).getD i "" := by
    funext i
    exact getD_map_lt (fun c => c.getD i "") cols j hjm "" []
  rw [hfun, ← hcjlen, getD_range_length]

/-- C4 counterexample: the header-less table with one empty column is
rectangular (every column has length `0`), yet transposing twice yields
no columns at all rather than the original column contents. -/
theorem transpose_roundtrip_counterexample :
    transpose ⟨none, none, [[]], none, false⟩ = Except.ok ⟨none, none, [], none, true⟩
    ∧ transpose ⟨none, none, [], none, true⟩ = Except.ok ⟨none, none, [], none, true⟩
    ∧ ([] : List (List String)) ≠ [[]] :=
  ⟨rfl, rfl, by decide⟩

/-- C4 (amended): transposing a header-less table twice restores the
original column contents exactly when the columns are rectangular of
positive common length — the instance is unchanged except that the
column containers are left as tuples (the output of `zip_longest`)
rather than lists. -/
theorem transpose_roundtrip_rect (t : SimpleTable) (n : Nat) (hh : t.header = none)
    (hall : ∀ c ∈ t.columns, c.length = n) (hn : 0 < n) :
    Except.bind (transpose t) transpose = Except.ok { t with columns_are_tuples := true } := by
  have h1 : transpose t = Except.ok
      { t with columns := zipLongestFill t.columns, columns_are_tuples := true } := by
    simp only [transpose, hh]
  have h2 : transpose { t with columns := zipLongestFill t.columns, columns_are_tuples := true }
      = Except.ok { t with
          columns := zipLongestFill (zipLongestFill t.columns),
          columns_are_tuples := true } := by
    simp only [transpose, hh]
  rw [h1]
  have hbind : Except.bind
      (Except.ok { t with columns := zipLongestFill t.columns, columns_are_tuples := true })
      transpose
      = transpose { t with columns := zipLongestFill t.columns, columns_are_tuples := true } :=
    rfl
  rw [hbind, h2, zip_zip_id t.columns n hall hn]

/-- Witness for C4 on a 2×2 table. -/
theorem transpose_roundtrip_rect_witness :
    Except.bind (transpose ⟨none, none, [["a", "b"], ["c", "d"]], none, false⟩) transpose
      = Except.ok ⟨none, none, [["a", "b"], ["c", "d"]], none, true⟩ :=
  transpose_roundtrip_rect ⟨none, none, [["a", "b"], ["c", "d"]], none, false⟩ 2 rfl (by decide)
    (by decide)

/-! ## C5: transpose with a header -/

/-- Positional prepending: header item `i` onto column `i`, leftover
header items becoming singleton columns. -/
def prependEach : List String → List (List String) → List (List String)
  | [], cols => cols
  | item :: rest, [] => [item] :: prependEach rest []
  | item :: rest, c :: cs => (item :: c) :: prependEach rest cs

/-- Modelled from the spec (claim C5 wording): each header item at
position `i` is prepended to the front of column `i` when `i` is below
the column count, and header items at or beyond the column count become
new single-item columns. -/
def enlarge_spec (hd : List String) (cols : List (List String)) : List (List String) :=
  ((List.range cols.length).map
    (fun i => if i < hd.length then hd.getD i "" :: cols.getD i [] else cols.getD i []))
  ++ (hd.drop cols.length).map (fun item => [item])

theorem prependEach_nil_right : ∀ hd : List String,
    prependEach hd [] = hd.map (fun item => [item]) := by
  intro hd
  induction hd with
  | nil => rfl
  | cons item rest ih => rw [prependEach, ih, List.map_cons]

theorem prependEach_eq_spec : ∀ (hd : List String) (cols : List (List String)),
    prependEach hd cols = enlarge_spec hd cols := by
  intro hd cols
  induction cols generalizing hd with
  | nil =>
    rw [prependEach_nil_right, enlarge_spec]
    simp
  | cons c cs ih =>
    cases hd with
    | nil =>
      rw [prependEach, enlarge_spec]
      simp only [List.length_nil, Nat.not_lt_zero, if_false, List.drop_nil, List.map_nil,
        List.append_nil]
      exact (getD_range_length (c :: cs) []).symm
    | cons item rest =>
      rw [prependEach, ih rest, enlarge_spec, enlarge_spec]
      simp only [List.length_cons, List.range_succ_eq_map, List.map_cons, List.map_map,
        List.getD_cons_zero, List.drop_succ_cons]
      rw [List.cons_append, if_pos (Nat.succ_pos rest.length)]
      refine congrArg (fun l => (item :: c) :: l) ?_
      refine congrArg (fun l => l ++ (rest.drop cs.length).map (fun item => [item])) ?_
      refine List.map_congr_left ?_
      intro i _
      simp [Nat.succ_lt_succ_iff]

theorem take_succ_set (l : List (List String)) : ∀ (i : Nat) (a : List String),
    i < l.length → (l.set i a).take (i + 1) = l.take i ++ [a] := by
  induction l with
  | nil => intro i a h; simp at h
  | cons x xs ih =>
    intro i a h
    cases i with
    | zero => simp
    | succ j =>
      rw [List.set_cons_succ, List.take_succ_cons, List.take_succ_cons,
        ih j a (by simpa using h), List.cons_append]

theorem drop_succ_set (l : List (List String)) : ∀ (i : Nat) (a : List String),
    (l.set i a).drop (i + 1) = l.drop (i + 1) := by
  induction l with
  | nil => intro i a; simp
  | cons x xs ih =>
    intro i a
    cases i with
    | zero => simp
    | succ j =>
      rw [List.set_cons_succ, List.drop_succ_cons, List.drop_succ_cons, ih j a]

theorem drop_eq_getD_cons (l : List (List String)) : ∀ i : Nat, i < l.length →
    l.drop i = l.getD i [] :: l.drop (i + 1) := by
  induction l with
  | nil => intro i h; simp at h
  | cons x xs ih =>
    intro i h
    cases i with
    | zero => simp
    | succ j =>
      rw [List.drop_succ_cons, List.getD_cons_succ, List.drop_succ_cons,
        ih j (by simpa using h)]

/-- The mutating loop of `transpose` (`insert(0, ...)` / `append`) equals
take-prefix plus positional prepending on the untouched suffix. -/
theorem prepend_header_go_eq : ∀ (hd : List String) (cols : List (List String)) (i : Nat),
    i ≤ cols.length →
    prepend_header_go i hd cols = cols.take i ++ prependEach hd (cols.drop i) := by
  intro hd
  induction hd with
  | nil =>
    intro cols i _
    rw [prepend_header_go, prependEach, List.take_append_drop]
  | cons item rest ih =>
    intro cols i hi
    rcases lt_or_eq_of_le hi with hlt | heq
    · rw [prepend_header_go, if_pos hlt]
      rw [ih _ (i + 1) (by rw [List.length_set]; omega)]
      rw [take_succ_set cols i _ hlt, drop_succ_set cols i _]
      rw [drop_eq_getD_cons cols i hlt]
      simp only [prependEach]
      simp [List.append_assoc]
    · rw [prepend_header_go, if_neg (by omega)]
      subst heq
      rw [ih _ (cols.length + 1) (by simp)]
      have ht : (cols ++ [[item]]).take (cols.length + 1) = cols ++ [[item]] := by
        apply List.take_of_length_le
        simp
      have hd2 : (cols ++ [[item]]).drop (cols.length + 1) = [] := by
        apply List.drop_eq_nil_of_le
        simp
      rw [ht, hd2, prependEach_nil_right, List.take_length, List.drop_length]
      simp only [prependEach]
      rw [prependEach_nil_right]
      simp [List.append_assoc]

/-- C5: with a header present and the columns in the list state (the
state every table has unless a header-less transpose intervened; on
tuple columns the loop's `insert` raises instead), `transpose` prepends
header items positionally (surplus items become new single-item
columns), zips the enlarged columns with empty fill, and splits each
transposed group into its first element (new header) and remainder (new
column data), stored as lists. -/
theorem transpose_with_header (t : SimpleTable) (hd : List String) (hh : t.header = some hd)
    (hl : t.columns_are_tuples = false) :
    transpose t = Except.ok { t with
      header := some ((zipLongestFill (enlarge_spec hd t.columns)).map (fun g => g.headD "")),
      columns := (zipLongestFill (enlarge_spec hd t.columns)).map (fun g => g.drop 1),
      columns_are_tuples := false } := by
  have hcols : prepend_header_go 0 hd t.columns = enlarge_spec hd t.columns := by
    rw [prepend_header_go_eq hd t.columns 0 (Nat.zero_le _), List.take_zero, List.drop_zero,
      List.nil_append, prependEach_eq_spec]
  simp only [transpose, hh, hcols]
  rw [if_neg (by simp [hl])]
  rw [heads_of_some _ (fun g hg => zip_mem_ne_nil _ g hg)]

/-- Witness for C5: a three-item header over two ragged columns; `"Z"`
becomes a new column, and the split produces header `["X","a",""]`. -/
theorem transpose_with_header_witness :
    transpose ⟨none, some ["X", "Y", "Z"], [["a"], ["b", "c"]], none, false⟩
      = Except.ok ⟨none, some ["X", "a", ""], [["Y", "Z"], ["b", ""], ["c", ""]], none, false⟩ := by
  have h := transpose_with_header ⟨none, some ["X", "Y", "Z"], [["a"], ["b", "c"]], none, false⟩
    ["X", "Y", "Z"] rfl rfl
  exact h.trans (by rfl)
